import Mathlib

/-
Verification of the goals-app daily rollup and day-lifecycle logic.

Shallow embedding of the goal-progress rollup engine and day-lifecycle
state machine of `src/components/GoalApp.tsx` (and its close variants in
`src/unnamed/part_005` / `src/unnamed/part_006`).

Modelling conventions:
* JavaScript numbers that hold integer percentages, weights and counters
  are modelled as `Nat` (task percents, weights) or `Int` (goal progress,
  credit values, which are combined with subtraction).
* `Math.round(x)` on the nonnegative rationals produced by the app
  (`sum/len`, `avg/100*weight`, `sum/(count*100)*weight`) is modelled as
  exact rational round-half-up, `(2*a + b) / (2*b)` for `a/b` in `Nat`
  division.  All concrete values appearing in the spec's examples are
  exact in binary floating point as well.
* JavaScript `Record<string, number>` credit maps are modelled as
  association lists with first-match lookup defaulting to `0`
  (`prevCredits[g.id] || 0`).  Key iteration order of a JS object only
  affects the order in which entries are written, never a lookup, so the
  model is keyed, not ordered.
* React state updates (`setGoals`, `setPlans`, ...) are modelled as pure
  state transitions; an effect or callback reads the current state.
  Timestamp fields (`createdAt`, `updatedAt`) are omitted: they are
  wall-clock metadata written on update and no claim concerns them.
-/

namespace GoalsApp

/-! ## Data model (GoalApp.tsx, `interface Goal` / `interface Task`) -/

/-- A long-term goal.  `progress` is the cumulative percentage (the code
clamps it to `[0,100]`); `dailyWeight` is optional with default 5
(`g.dailyWeight ?? 5`).  Free-text and date fields that no claim touches
are kept only where a claim mentions them. -/
structure Goal where
  id : Nat
  progress : Int
  dailyWeight : Option Nat
  deriving Repr, DecidableEq

/-- A day-scoped task contributing to one goal's daily average. -/
structure Task where
  id : Nat
  goalId : Nat
  title : String
  how : Option String
  percent : Nat
  deriving Repr, DecidableEq

/-- The per-day credits map `goalId -> last applied integer delta`,
modelled as an association list with first-match lookup. -/
abbrev Credits := List (Nat × Int)

/-- The helper `clamp(n, min, max) = Math.min(Math.max(n, min), max)` (GoalApp.tsx:87). -/
def clampI (n lo hi : Int) : Int := min (max n lo) hi

/-- Exact `Math.round(a / b)` for nonnegative `a/b`: round half up,
`floor(a/b + 1/2)`. -/
def roundHalfUpDiv (a b : Nat) : Nat := (2 * a + b) / (2 * b)

/-- The lookup `prevCredits[gid] || 0`: first match, defaulting to 0. -/
def lookupCredit : Credits → Nat → Int
  | [], _ => 0
  | q :: qs, gid => if q.1 = gid then q.2 else lookupCredit qs gid

/-- The weight lookup `goals.find(x => x.id === gid)?.dailyWeight ?? 5`
(GoalApp.tsx:1364-1365). -/
def weightOf (goals : List Goal) (gid : Nat) : Nat :=
  match goals.find? (fun g => g.id == gid) with
  | some g => g.dailyWeight.getD 5
  | none => 5

/-- First-occurrence deduplication, the key order of the `byGoal` map
built by inserting each task's `goalId` in task order. -/
def dedupFirst : List Nat → List Nat
  | [] => []
  | x :: xs => x :: (dedupFirst xs).filter (fun y => y ≠ x)

/-- The distinct goal ids referenced by a day's tasks, in first-occurrence
order (the keys of `byGoal`, GoalApp.tsx:1354-1359). -/
def goalIds (tasks : List Task) : List Nat :=
  dedupFirst (tasks.map (fun t => t.goalId))

/-- The day's tasks belonging to goal `gid` (the `byGoal` bucket). -/
def tasksFor (tasks : List Task) (gid : Nat) : List Task :=
  tasks.filter (fun t => t.goalId == gid)

/-- Sum of the `percent` fields (`list.reduce((s, t) => s + t.percent, 0)`). -/
def sumPercents (l : List Task) : Nat := l.foldl (fun s t => s + t.percent) 0

/-- The expression `Math.round(list.reduce(..) / list.length)` — the day's average
completion of a goal's task bucket, 0..100 (GoalApp.tsx:1366). -/
def dayAverage (l : List Task) : Nat := roundHalfUpDiv (sumPercents l) l.length

/-- The expression `Math.round((avg / 100) * weight)` — the day's credit for one goal in
the dynamic applier (GoalApp.tsx:1367). -/
def creditFor (goals : List Goal) (tasks : List Task) (gid : Nat) : Nat :=
  roundHalfUpDiv (dayAverage (tasksFor tasks gid) * weightOf goals gid) 100

/-- The recomputed `nextCredits` map (GoalApp.tsx:1362-1374): a credit for
every goal referenced by today's tasks, and `0` for goals that previously
had a credit but no longer have tasks. -/
def nextCredits (goals : List Goal) (tasks : List Task) (prevC : Credits) : Credits :=
  let gids := goalIds tasks
  (gids.map (fun gid => (gid, (creditFor goals tasks gid : Int)))) ++
    (((prevC.map (fun p => p.1)).filter (fun gid => ¬ gid ∈ gids)).map (fun gid => (gid, (0 : Int))))

/-- The `changed` check (GoalApp.tsx:1377-1381): some key of either map
has a different value (missing keys read as 0). -/
def creditsChanged (prevC nc : Credits) : Bool :=
  ((prevC.map (fun p => p.1)) ++ (nc.map (fun p => p.1))).any
    (fun k => lookupCredit prevC k != lookupCredit nc k)

/-- The per-goal diff application (GoalApp.tsx:1386-1392): add
`next - before` to the goal's progress, clamped to `[0,100]`; leave the
goal untouched when the diff is zero. -/
def applyGoalCredit (prevC nc : Credits) (g : Goal) : Goal :=
  let before := lookupCredit prevC g.id
  let after := lookupCredit nc g.id
  if after - before = 0 then g
  else { g with progress := clampI (g.progress + (after - before)) 0 100 }

/-- One run of the dynamic progress applier (GoalApp.tsx:1347-1399):
recompute credits, and if anything changed, apply the per-goal diffs and
persist the new credits map.  Returns `(goals, credits)`. -/
def applyCredits (goals : List Goal) (tasks : List Task) (prevC : Credits) :
    List Goal × Credits :=
  let nc := nextCredits goals tasks prevC
  if creditsChanged prevC nc then (goals.map (applyGoalCredit prevC nc), nc)
  else (goals, prevC)

/-- A day: start with an empty credits map and run the applier after each
task edit (each element of `edits` is the full task list after one edit). -/
def runDay (goals : List Goal) (edits : List (List Task)) : List Goal × Credits :=
  edits.foldl (fun st ts => applyCredits st.1 ts st.2) (goals, ([] : Credits))

/-- The stored progress of the first goal with the given id. -/
def progressOf (goals : List Goal) (gid : Nat) : Option Int :=
  (goals.find? (fun g => g.id == gid)).map (fun g => g.progress)

/-! ## Close-day variant (GoalApp.tsx:404-485)

The first component in `GoalApp.tsx` has an explicit "Close day" action:
`canClose` gates it and `closeDayAndUpdate` applies the weighted delta,
copies flagged incomplete tasks into tomorrow, locks today and records
the reflection. -/

/-- The `triedWell` choices; the empty selection is `Option.none`. -/
inductive TriedV where
  | yes
  | no
  | neutral
  deriving Repr, DecidableEq

/-- The end-of-day reflection record (`interface DayMeta`). -/
structure DayMeta where
  learned : String
  improve : String
  triedWell : TriedV
  whyNotComplete : String
  eodSubmitted : Bool
  deriving Repr, DecidableEq

/-- The test `whyNot && whyNot.trim().length > 0`: a JS string is truthy and trims
to a positive length exactly when it contains a non-whitespace character. -/
def nonBlank (s : String) : Bool := s.data.any (fun c => !c.isWhitespace)

/-- The test `tasks.some(t => t.percent < 100)` (GoalApp.tsx:421). -/
def hasIncomplete (ts : List Task) : Bool := ts.any (fun t => t.percent < 100)

/-- The state touched by the close-day flow: today's plan and EOD inputs,
tomorrow's plan, the goal store and today's reflection record. -/
structure CloseState where
  goals : List Goal
  todayTasks : List Task
  todayLocked : Bool
  tomorrowTasks : List Task
  tomorrowPriorities : List Nat
  tried : Option TriedV
  whyNot : String
  learned : String
  improve : String
  postponeFlags : List Nat
  todayMeta : Option DayMeta
  deriving Repr, DecidableEq

/-- The close gate (GoalApp.tsx:422-424): at least one task, a `triedWell`
choice, and — when some task is below 100% — a non-blank reason. -/
def canClose (st : CloseState) : Bool :=
  decide (0 < st.todayTasks.length) && st.tried.isSome &&
    (!hasIncomplete st.todayTasks || nonBlank st.whyNot)

/-- The close-day delta `Math.round((sum / (count * 100)) * weight)`
(GoalApp.tsx:441-443) — the close-day
delta (GoalApp.tsx:441-443): one exact rounding of the unrounded mean
scaled by the weight. -/
def closeDelta (sum count weight : Nat) : Nat :=
  roundHalfUpDiv (sum * weight) (count * 100)

/-- Per-goal update at close (GoalApp.tsx:437-447): goals without a task
today are untouched; others gain the clamped close-day delta. -/
def closeGoalUpdate (tasks : List Task) (g : Goal) : Goal :=
  let l := tasksFor tasks g.id
  let d : Int := closeDelta (sumPercents l) l.length (g.dailyWeight.getD 5)
  if l.isEmpty then g
  else { g with progress := clampI (g.progress + d) 0 100 }

/-- The postponement copy (GoalApp.tsx:459-461): same `goalId`, `title`,
`how`, a fresh id, percent reset to 0. -/
def copyTask (newId : Nat) (t : Task) : Task :=
  { id := newId, goalId := t.goalId, title := t.title, how := t.how, percent := 0 }

/-- Copies for a list of tasks with ids drawn from the generator
(`uid()` modelled as an injective supply `idGen`). -/
def copyAll (idGen : Nat → Nat) : Nat → List Task → List Task
  | _, [] => []
  | i, t :: ts => copyTask (idGen i) t :: copyAll idGen (i + 1) ts

/-- The selection `todayTasks.filter(t => t.percent < 100 && postponeMap[t.id])`
(GoalApp.tsx:451). -/
def incompleteFlagged (st : CloseState) : List Task :=
  st.todayTasks.filter (fun t => decide (t.percent < 100) && st.postponeFlags.contains t.id)

/-- Merge the goal ids of postponed tasks into tomorrow's priorities,
keeping existing order and appending missing ones (GoalApp.tsx:456-458). -/
def mergePriorities (cur add : List Nat) : List Nat :=
  cur ++ (dedupFirst add).filter (fun gid => !cur.contains gid)

/-- The close action `closeDayAndUpdate` (GoalApp.tsx:426-485): when `canClose` holds,
apply the weighted deltas to the goals, copy flagged incomplete tasks
into tomorrow at 0%, lock today, store the reflection with
`eodSubmitted = true` and reset the EOD inputs; otherwise do nothing. -/
def closeDayAndUpdate (idGen : Nat → Nat) (st : CloseState) : CloseState :=
  if canClose st then
    let inc := incompleteFlagged st
    let moved := copyAll idGen 0 inc
    { st with
      goals := st.goals.map (closeGoalUpdate st.todayTasks)
      todayLocked := true
      tomorrowTasks := if inc.isEmpty then st.tomorrowTasks else moved ++ st.tomorrowTasks
      tomorrowPriorities :=
        if inc.isEmpty then st.tomorrowPriorities
        else mergePriorities st.tomorrowPriorities (inc.map (fun t => t.goalId))
      todayMeta := some
        { learned := st.learned
          improve := st.improve
          triedWell := st.tried.getD TriedV.neutral
          whyNotComplete := if hasIncomplete st.todayTasks then st.whyNot else ""
          eodSubmitted := true }
      tried := none, whyNot := "", learned := "", improve := "", postponeFlags := [] }
  else st

/-! ## The spec's two-stage rollup description (for claim C4)

Modelled from the spec's words, to be compared with `closeDelta`:
`computeDayAverage` = arithmetic mean of the percents rounded to the
nearest integer, and `computeDelta(average, dailyWeight)` =
`round(average/100 * dailyWeight)`. -/

/-- Spec `computeDayAverage`: mean of the percents, rounded to nearest. -/
def specDayAverage (l : List Task) : Nat := roundHalfUpDiv (sumPercents l) l.length

/-- Spec `computeDelta`: `round(average/100 * dailyWeight)`. -/
def specDelta (average weight : Nat) : Nat := roundHalfUpDiv (average * weight) 100

/-! ## Catch-up gate (GoalApp.tsx:284-295 and 903-913)

A small event system around the catch-up dialog.  `syncCatch` is the
effect that reopens the dialog after every `plans`/`meta` change while
yesterday's plan exists and its reflection was never submitted.  Events
are the interactions wired in the component; while the dialog is open it
overlays the page, so other interactions are not deliverable (the spec:
it "blocks all other interaction"), but the dialog itself may be
dismissed, which only sets `catchOpen` to `false` (GoalApp.tsx:905). -/

/-- The state touched by the catch-up gate: yesterday's plan and meta,
today's tasks, the goal store and the dialog flag. -/
structure GateState where
  goals : List Goal
  yPlanExists : Bool
  yTasks : List Task
  yLocked : Bool
  ySubmitted : Bool
  todayTasks : List Task
  todayLocked : Bool
  catchOpen : Bool
  deriving Repr, DecidableEq

/-- The sync effect (GoalApp.tsx:285-295): if yesterday has a plan whose
meta is not `eodSubmitted`, open the catch-up dialog. -/
def syncCatch (st : GateState) : GateState :=
  if st.yPlanExists && !st.ySubmitted then { st with catchOpen := true } else st

/-- The catch-up dialog's own submit gate (GoalApp.tsx:208-209): a
`triedWell` choice, and a non-blank reason when a task is incomplete. -/
def catchCanSubmit (yTasks : List Task) (tried : Option TriedV) (why : String) : Bool :=
  tried.isSome && (!hasIncomplete yTasks || nonBlank why)

/-- User interactions at the catch-up gate. -/
inductive GateEvent where
  | dismissCatch : GateEvent
  | submitCatch : TriedV → String → GateEvent
  | addTaskToday : Task → GateEvent
  deriving Repr, DecidableEq

/-- One interaction step; `none` means the interaction is not available
(dialog closed, its submit gate unsatisfied, the modal overlay in the
way, or `addTask`'s own guard).  After an event that changes `plans` or
`meta` the sync effect reruns; dismissing the dialog changes neither, so
no sync follows it. -/
def gateStep (st : GateState) : GateEvent → Option GateState
  | GateEvent.dismissCatch =>
      if st.catchOpen then some { st with catchOpen := false } else none
  | GateEvent.submitCatch tr why =>
      if !st.catchOpen then none
      else if !catchCanSubmit st.yTasks (some tr) why then none
      else some (syncCatch { st with ySubmitted := true, yLocked := true, catchOpen := false })
  | GateEvent.addTaskToday t =>
      if st.catchOpen then none
      else if !nonBlank t.title || st.todayLocked then none
      else some (syncCatch { st with todayTasks :=
        { id := t.id, goalId := t.goalId, title := t.title, how := t.how, percent := 0 }
          :: st.todayTasks })

/-! ## Auto-carry of postponed tasks (dynamic variant, GoalApp.tsx:1211-1246) -/

/-- The state touched by the auto-carry effect: yesterday's plan with its
postpone flags, and today's plan with its `carriedFrom` marker
(`tCarriedFromY` models `tPlan.carriedFrom === y`). -/
structure CarryState where
  yPlanExists : Bool
  yTasks : List Task
  yPostponeFlags : List Nat
  tTasks : List Task
  tPriorities : List Nat
  tCarriedFromY : Bool
  deriving Repr, DecidableEq

/-- The auto-carry effect (GoalApp.tsx:1211-1246): once per day
transition (guarded by `carriedFrom`), copy yesterday's flagged
incomplete tasks into today at 0% and merge their goal ids into today's
priorities. -/
def autoCarry (idGen : Nat → Nat) (st : CarryState) : CarryState :=
  if !st.yPlanExists || st.tCarriedFromY then st
  else
    let toMove := st.yTasks.filter
      (fun t => st.yPostponeFlags.contains t.id && decide (t.percent < 100))
    if toMove.isEmpty then { st with tCarriedFromY := true }
    else
      { st with
        tCarriedFromY := true
        tPriorities := mergePriorities st.tPriorities (toMove.map (fun t => t.goalId))
        tTasks := copyAll idGen 0 toMove ++ st.tTasks }

/-! ## Focus-session timer (src/unnamed/part_006:242-378)

The `FocusPanel` countdown with periodic check-in prompts: a 15-minute
check-in schedule, a 60-second acknowledgement grace period, and a
per-day completed-session counter.  The `setInterval` callback is
modelled as a `tick` transition taking the current wall-clock time `t`
(milliseconds) as a parameter.  The callback is created once, inside
`startTimer`, and its plain reads of `needsAck` and `running` see the
values those bindings had in the render that called `startTimer` — they
are closure captures, not current state — so `tick` takes them as
explicit `needsAckStale` / `runningStale` parameters; only the
functional updaters (`setRemainingSec`, `setNextAckAt`,
`setAckDeadline`) read current state.  Recorded sessions are abstracted
to their status, the only field the counter logic inspects. -/

inductive SessionStatus where
  | completed
  | failed
  | canceled
  deriving Repr, DecidableEq

/-- The focus-timer state. -/
structure FocusState where
  running : Bool
  remainingSec : Int
  needsAck : Bool
  ackDeadline : Option Nat
  nextAckAt : Option Nat
  focusedCount : Nat
  sessions : List SessionStatus
  deriving Repr, DecidableEq

/-- The recorder `recordSession` (part_006:262-293): a completed session increments
the day's counter and is prepended; a failed one resets the counter to 0
and discards the recorded sessions; a canceled one is only logged. -/
def recordSession (status : SessionStatus) (st : FocusState) : FocusState :=
  match status with
  | SessionStatus.completed =>
      { st with focusedCount := st.focusedCount + 1, sessions := status :: st.sessions }
  | SessionStatus.failed => { st with focusedCount := 0, sessions := [] }
  | SessionStatus.canceled => { st with sessions := status :: st.sessions }

/-- The stop action `stopTimer` (part_006:295-306): clear the timer state and record the
session with the given status. -/
def stopTimer (status : SessionStatus) (st : FocusState) : FocusState :=
  recordSession status
    { st with
      running := false
      needsAck := false
      ackDeadline := none
      nextAckAt := none
      remainingSec := 0 }

/-- One interval tick at wall-clock time `t` (part_006:321-363):
decrement the countdown (functional updater, current state); raise the
check-in prompt when its schedule time passed, guarded by the
closure-captured `!needsAck` (`needsAckStale`); fail the session when
the grace deadline was missed, guarded by the closure-captured
`needsAck`; and finish it when the countdown reaches zero, guarded by
the closure-captured `running` (`runningStale`) and `needsAck`. -/
def tick (needsAckStale runningStale : Bool) (t : Nat) (st : FocusState) : FocusState :=
  let st1 : FocusState := { st with remainingSec := max (st.remainingSec - 1) 0 }
  let st2 : FocusState :=
    match st1.nextAckAt with
    | some na =>
        if decide (na ≤ t) && !needsAckStale then
          { st1 with needsAck := true, ackDeadline := some (t + 60 * 1000) }
        else st1
    | none => st1
  let st3 : FocusState :=
    match st2.ackDeadline with
    | some dl =>
        if needsAckStale && decide (dl < t) then stopTimer SessionStatus.failed st2 else st2
    | none => st2
  if decide (st3.remainingSec ≤ 1) && runningStale then
    (if needsAckStale then stopTimer SessionStatus.failed st3
     else stopTimer SessionStatus.completed st3)
  else st3

/-- The interval callback as the program actually creates it
(part_006:308-321): `startTimer` is reachable only from the Start button
of a render with `running = false` (part_006:395-412), and every path
that clears `running` also clears `needsAck` (`stopTimer`,
part_006:295-306, and the initial state), so the closure created by
`startTimer` captures `needsAck = false` and `running = false` for the
whole life of the interval. -/
def sessionTick (t : Nat) (st : FocusState) : FocusState := tick false false t st

/-! ## Basic lemmas about the credit map -/

theorem applyGoalCredit_id (p n : Credits) (g : Goal) :
    (applyGoalCredit p n g).id = g.id := by
  unfold applyGoalCredit; dsimp only; split <;> rfl

theorem applyGoalCredit_dailyWeight (p n : Credits) (g : Goal) :
    (applyGoalCredit p n g).dailyWeight = g.dailyWeight := by
  unfold applyGoalCredit; dsimp only; split <;> rfl

theorem lookupCredit_eq_zero (cs : Credits) (k : Nat)
    (h : k ∉ cs.map (fun q => q.1)) : lookupCredit cs k = 0 := by
  induction cs with
  | nil => rfl
  | cons q qs ih =>
    rw [List.map_cons, List.mem_cons] at h
    push_neg at h
    rw [lookupCredit, if_neg (fun hh => h.1 hh.symm), ih h.2]

theorem lookupCredit_keyed (f : Nat → Int) (gids : List Nat) (k : Nat) :
    lookupCredit (gids.map (fun gid => (gid, f gid))) k = if k ∈ gids then f k else 0 := by
  induction gids with
  | nil => rfl
  | cons x xs ih =>
    rw [List.map_cons, lookupCredit, ih]
    by_cases hx : x = k
    · subst hx
      simp
    · have hk : (k ∈ x :: xs) ↔ (k ∈ xs) := by
        rw [List.mem_cons]
        exact or_iff_right (fun hh => hx hh.symm)
      rw [if_neg hx, if_congr hk rfl rfl]

theorem lookupCredit_append (c1 c2 : Credits) (k : Nat) :
    lookupCredit (c1 ++ c2) k =
      if k ∈ c1.map (fun q => q.1) then lookupCredit c1 k else lookupCredit c2 k := by
  induction c1 with
  | nil => simp [lookupCredit]
  | cons q qs ih =>
    rw [List.cons_append, lookupCredit, ih, List.map_cons, lookupCredit]
    by_cases hq : q.1 = k
    · simp [hq]
    · have hk : (k ∈ q.1 :: qs.map (fun r => r.1)) ↔ (k ∈ qs.map (fun r => r.1)) := by
        rw [List.mem_cons]
        exact or_iff_right (fun hh => hq hh.symm)
      rw [if_neg hq, if_congr hk rfl rfl, if_neg hq]

theorem lookupCredit_nextCredits (gs : List Goal) (tasks : List Task) (p : Credits) (k : Nat) :
    lookupCredit (nextCredits gs tasks p) k =
      if k ∈ goalIds tasks then (creditFor gs tasks k : Int) else 0 := by
  unfold nextCredits
  rw [lookupCredit_append]
  have hkeys : ((goalIds tasks).map (fun gid => (gid, (creditFor gs tasks gid : Int)))).map
      (fun q => q.1) = goalIds tasks := by
    rw [List.map_map]; exact List.map_id' _
  rw [hkeys, lookupCredit_keyed]
  by_cases hk : k ∈ goalIds tasks
  · simp [hk]
  · simp only [hk, if_false]
    rw [lookupCredit_keyed]
    split <;> rfl

theorem creditsChanged_eq_false_iff (p n : Credits) :
    creditsChanged p n = false ↔ ∀ k, lookupCredit p k = lookupCredit n k := by
  unfold creditsChanged
  rw [List.any_eq_false]
  constructor
  · intro h k
    by_cases hk : k ∈ p.map (fun q => q.1) ++ n.map (fun q => q.1)
    · have := h k hk
      simpa [bne_iff_ne] using this
    · rw [List.mem_append] at hk
      push_neg at hk
      rw [lookupCredit_eq_zero p k hk.1, lookupCredit_eq_zero n k hk.2]
  · intro h k _
    simp [bne_iff_ne, h k]

theorem weightOf_map_applyGoalCredit (p n : Credits) (gs : List Goal) (gid : Nat) :
    weightOf (gs.map (applyGoalCredit p n)) gid = weightOf gs gid := by
  unfold weightOf
  rw [List.find?_map]
  have hcomp : ((fun g : Goal => g.id == gid) ∘ applyGoalCredit p n)
      = (fun g : Goal => g.id == gid) := by
    funext g
    simp [Function.comp, applyGoalCredit_id]
  rw [hcomp]
  cases h : gs.find? (fun g => g.id == gid) with
  | none => rfl
  | some g => simp [applyGoalCredit_dailyWeight]

theorem creditFor_map_applyGoalCredit (p n : Credits) (gs : List Goal)
    (tasks : List Task) (gid : Nat) :
    creditFor (gs.map (applyGoalCredit p n)) tasks gid = creditFor gs tasks gid := by
  unfold creditFor
  rw [weightOf_map_applyGoalCredit]

/-- When the recomputed credits agree with the stored map, the applier
leaves the state untouched (the `!changed` early return). -/
theorem applyCredits_fixed (gs : List Goal) (tasks : List Task) (c : Credits)
    (h : ∀ k, lookupCredit (nextCredits gs tasks c) k = lookupCredit c k) :
    applyCredits gs tasks c = (gs, c) := by
  have hch : creditsChanged c (nextCredits gs tasks c) = false :=
    (creditsChanged_eq_false_iff _ _).2 (fun k => (h k).symm)
  unfold applyCredits
  simp [hch]

/-! ## C1: the credit rollup is idempotent -/

/-- C1: running the credit rollup (`applyCredits`) twice in succession
with the same day's tasks and unchanged goal weights leaves the state of
the second run identical to that of the first: the recomputed credits
equal the stored credits, every diff is zero, and in particular every
goal's progress is unchanged by the second run. -/
theorem applyCredits_idempotent (gs : List Goal) (tasks : List Task) (p : Credits) :
    applyCredits (applyCredits gs tasks p).1 tasks (applyCredits gs tasks p).2
      = applyCredits gs tasks p := by
  cases hch : creditsChanged p (nextCredits gs tasks p) with
  | false =>
    have h1 : applyCredits gs tasks p = (gs, p) := by
      unfold applyCredits; simp [hch]
    rw [h1]
    exact h1
  | true =>
    have h1 : applyCredits gs tasks p
        = (gs.map (applyGoalCredit p (nextCredits gs tasks p)), nextCredits gs tasks p) := by
      unfold applyCredits; simp [hch]
    rw [h1]
    refine applyCredits_fixed _ _ _ (fun k => ?_)
    rw [lookupCredit_nextCredits, creditFor_map_applyGoalCredit,
      ← lookupCredit_nextCredits gs tasks p k]

/-! ## C2: only the difference from the last-applied credit is added -/

theorem clampI_eq_self (x : Int) (h0 : 0 ≤ x) (h1 : x ≤ 100) : clampI x 0 100 = x := by
  unfold clampI
  rw [max_eq_left h0, min_eq_left h1]

/-- C2: one run of the credit rollup moves a goal's progress to
`clamp(progress + (c_next - c_prev), 0, 100)` — it adds exactly the
difference between the newly computed credit and the stored credit,
never the full new credit. -/
theorem applyCredits_diff_only (gs : List Goal) (tasks : List Task) (prevC : Credits)
    (i : Nat) (g : Goal) (hg : gs[i]? = some g)
    (h0 : 0 ≤ g.progress) (h1 : g.progress ≤ 100) :
    ∃ g', (applyCredits gs tasks prevC).1[i]? = some g' ∧
      g'.progress = clampI (g.progress +
        (lookupCredit (nextCredits gs tasks prevC) g.id - lookupCredit prevC g.id)) 0 100 := by
  cases hch : creditsChanged prevC (nextCredits gs tasks prevC) with
  | false =>
    have heq := (creditsChanged_eq_false_iff _ _).1 hch g.id
    have hres : applyCredits gs tasks prevC = (gs, prevC) := by
      unfold applyCredits; simp [hch]
    refine ⟨g, by rw [hres]; exact hg, ?_⟩
    rw [← heq, sub_self, add_zero, clampI_eq_self _ h0 h1]
  | true =>
    have hres : applyCredits gs tasks prevC
        = (gs.map (applyGoalCredit prevC (nextCredits gs tasks prevC)),
           nextCredits gs tasks prevC) := by
      unfold applyCredits; simp [hch]
    refine ⟨applyGoalCredit prevC (nextCredits gs tasks prevC) g, ?_, ?_⟩
    · rw [hres]
      dsimp only
      rw [List.getElem?_map, hg, Option.map_some']
    · unfold applyGoalCredit
      dsimp only
      split
      · rename_i hzero
        rw [hzero, add_zero, clampI_eq_self _ h0 h1]
      · rfl

/-- Witness for C2, the spec's concrete instance: a goal with
`dailyWeight 5` whose single task was at 40% (stored credit 2, progress
52); after editing the task to 80% (credit 4) one rollup run adds
exactly `+2`, landing at 54 — not `+4`. -/
theorem applyCredits_diff_only_witness :
    ∃ g', (applyCredits [{ id := 1, progress := 52, dailyWeight := some 5 }]
        [{ id := 7, goalId := 1, title := "t", how := none, percent := 80 }]
        [(1, 2)]).1[0]? = some g' ∧ g'.progress = 54 := by
  obtain ⟨g', hmem, hval⟩ := applyCredits_diff_only
    [{ id := 1, progress := 52, dailyWeight := some 5 }]
    [{ id := 7, goalId := 1, title := "t", how := none, percent := 80 }]
    [(1, 2)] 0 { id := 1, progress := 52, dailyWeight := some 5 }
    rfl (by decide) (by decide)
  refine ⟨g', hmem, ?_⟩
  rw [hval]
  decide

/-! ## C8: locality — edits to one goal's tasks never affect another goal -/

theorem mem_dedupFirst (l : List Nat) (x : Nat) : x ∈ dedupFirst l ↔ x ∈ l := by
  induction l with
  | nil => simp [dedupFirst]
  | cons a as ih =>
    simp only [dedupFirst, List.mem_cons, List.mem_filter, ih]
    by_cases hxa : x = a <;> simp [hxa]

theorem mem_goalIds (ts : List Task) (k : Nat) :
    k ∈ goalIds ts ↔ ∃ t ∈ ts, t.goalId = k := by
  unfold goalIds
  rw [mem_dedupFirst, List.mem_map]

/-- Tasks of a goal `B` are untouched by changes confined to another
goal `A`'s tasks. -/
theorem tasksFor_eq_of_filter_eq (ts1 ts2 : List Task) (A B : Nat) (hAB : B ≠ A)
    (h : ts1.filter (fun t => !(t.goalId == A)) = ts2.filter (fun t => !(t.goalId == A))) :
    tasksFor ts1 B = tasksFor ts2 B := by
  have key : ∀ ts : List Task,
      tasksFor ts B = (ts.filter (fun t => !(t.goalId == A))).filter (fun t => t.goalId == B) := by
    intro ts
    rw [List.filter_filter]
    unfold tasksFor
    refine (List.filter_congr ?_).symm
    intro t _
    by_cases htB : t.goalId = B
    · simp [htB, hAB]
    · simp [htB]
  rw [key ts1, key ts2, h]

theorem mem_goalIds_iff_of_filter_eq (ts1 ts2 : List Task) (A B : Nat) (hAB : B ≠ A)
    (h : ts1.filter (fun t => !(t.goalId == A)) = ts2.filter (fun t => !(t.goalId == A))) :
    (B ∈ goalIds ts1) ↔ (B ∈ goalIds ts2) := by
  have key : ∀ ts : List Task, (B ∈ goalIds ts) ↔ tasksFor ts B ≠ [] := by
    intro ts
    rw [mem_goalIds]
    unfold tasksFor
    constructor
    · rintro ⟨t, ht, rfl⟩ hnil
      rw [List.filter_eq_nil_iff] at hnil
      exact hnil t ht (by simp)
    · intro hne
      rcases List.exists_mem_of_ne_nil _ hne with ⟨t, ht⟩
      rw [List.mem_filter] at ht
      exact ⟨t, ht.1, by simpa using ht.2⟩
  rw [key ts1, key ts2, tasksFor_eq_of_filter_eq ts1 ts2 A B hAB h]

theorem progressOf_map_applyGoalCredit (p n : Credits) (gs : List Goal) (gid : Nat) :
    progressOf (gs.map (applyGoalCredit p n)) gid
      = (gs.find? (fun g => g.id == gid)).map (fun g => (applyGoalCredit p n g).progress) := by
  unfold progressOf
  rw [List.find?_map]
  have hcomp : ((fun g : Goal => g.id == gid) ∘ applyGoalCredit p n)
      = (fun g : Goal => g.id == gid) := by
    funext g
    simp [Function.comp, applyGoalCredit_id]
  rw [hcomp, Option.map_map]
  rfl

/-- C8: locality of the credit rollup.  If two day states share the same
goal store and stored credits and differ only in the tasks that belong to
goal `A`, then one rollup run yields the same progress for every other
goal `B`. -/
theorem applyCredits_locality (gs : List Goal) (prevC : Credits) (ts1 ts2 : List Task)
    (A B : Nat) (hAB : B ≠ A)
    (h : ts1.filter (fun t => !(t.goalId == A)) = ts2.filter (fun t => !(t.goalId == A))) :
    progressOf (applyCredits gs ts1 prevC).1 B = progressOf (applyCredits gs ts2 prevC).1 B := by
  have hlook : lookupCredit (nextCredits gs ts1 prevC) B
      = lookupCredit (nextCredits gs ts2 prevC) B := by
    rw [lookupCredit_nextCredits, lookupCredit_nextCredits]
    have hcred : creditFor gs ts1 B = creditFor gs ts2 B := by
      unfold creditFor dayAverage
      rw [tasksFor_eq_of_filter_eq ts1 ts2 A B hAB h]
    rw [hcred, if_congr (mem_goalIds_iff_of_filter_eq ts1 ts2 A B hAB h) rfl rfl]
  have hgoal : ∀ ts1' ts2' : List Task,
      lookupCredit (nextCredits gs ts1' prevC) B = lookupCredit (nextCredits gs ts2' prevC) B →
      creditsChanged prevC (nextCredits gs ts1' prevC) = false →
      progressOf (applyCredits gs ts1' prevC).1 B = progressOf (applyCredits gs ts2' prevC).1 B := by
    intro ts1' ts2' hl hch1
    have h1 : applyCredits gs ts1' prevC = (gs, prevC) := by
      unfold applyCredits; simp [hch1]
    cases hch2 : creditsChanged prevC (nextCredits gs ts2' prevC) with
    | false =>
      have h2 : applyCredits gs ts2' prevC = (gs, prevC) := by
        unfold applyCredits; simp [hch2]
      rw [h1, h2]
    | true =>
      have h2 : applyCredits gs ts2' prevC
          = (gs.map (applyGoalCredit prevC (nextCredits gs ts2' prevC)),
             nextCredits gs ts2' prevC) := by
        unfold applyCredits; simp [hch2]
      rw [h1, h2]
      dsimp only
      rw [progressOf_map_applyGoalCredit]
      unfold progressOf
      cases hfind : gs.find? (fun g => g.id == B) with
      | none => rfl
      | some g =>
        have hid : g.id = B := by
          have := List.find?_some hfind
          simpa using this
        have hdiff : lookupCredit (nextCredits gs ts2' prevC) g.id - lookupCredit prevC g.id = 0 := by
          rw [hid, ← hl, ← (creditsChanged_eq_false_iff _ _).1 hch1 B, sub_self]
        simp only [Option.map_some']
        unfold applyGoalCredit
        rw [if_pos hdiff]
    -- end hgoal
  cases hch1 : creditsChanged prevC (nextCredits gs ts1 prevC) with
  | false =>
    exact hgoal ts1 ts2 hlook hch1
  | true =>
    cases hch2 : creditsChanged prevC (nextCredits gs ts2 prevC) with
    | false =>
      exact (hgoal ts2 ts1 hlook.symm hch2).symm
    | true =>
      have h1 : applyCredits gs ts1 prevC
          = (gs.map (applyGoalCredit prevC (nextCredits gs ts1 prevC)),
             nextCredits gs ts1 prevC) := by
        unfold applyCredits; simp [hch1]
      have h2 : applyCredits gs ts2 prevC
          = (gs.map (applyGoalCredit prevC (nextCredits gs ts2 prevC)),
             nextCredits gs ts2 prevC) := by
        unfold applyCredits; simp [hch2]
      rw [h1, h2]
      dsimp only
      rw [progressOf_map_applyGoalCredit, progressOf_map_applyGoalCredit]
      cases hfind : gs.find? (fun g => g.id == B) with
      | none => rfl
      | some g =>
        have hid : g.id = B := by
          have := List.find?_some hfind
          simpa using this
        simp only [Option.map_some']
        unfold applyGoalCredit
        rw [hid, hlook]

/-- Witness for C8: adding a task for goal 2 leaves goal 1's progress
where the rollup put it (the task lists differ only in goal 2's tasks). -/
theorem applyCredits_locality_witness :
    progressOf (applyCredits
      [{ id := 1, progress := 50, dailyWeight := some 5 },
       { id := 2, progress := 20, dailyWeight := some 10 }]
      [{ id := 7, goalId := 1, title := "t", how := none, percent := 80 }] []).1 1
    = progressOf (applyCredits
      [{ id := 1, progress := 50, dailyWeight := some 5 },
       { id := 2, progress := 20, dailyWeight := some 10 }]
      [{ id := 7, goalId := 1, title := "t", how := none, percent := 80 },
       { id := 8, goalId := 2, title := "u", how := none, percent := 100 }] []).1 1 :=
  applyCredits_locality _ _ _ _ 2 1 (by decide) (by decide)

/-! ## C3: boundedness of the per-day delta and of progress -/

theorem clampI_nonneg (x : Int) : 0 ≤ clampI x 0 100 :=
  le_min (le_max_right x 0) (by norm_num)

theorem clampI_le_100 (x : Int) : clampI x 0 100 ≤ 100 :=
  min_le_right _ _

theorem clampI_le_of (x y : Int) (hxy : x ≤ y) (hy : 0 ≤ y) : clampI x 0 100 ≤ y :=
  le_trans (min_le_left _ _) (max_le hxy hy)

theorem sumPercents_aux (a : Nat) (l : List Task) :
    l.foldl (fun s t => s + t.percent) a = a + sumPercents l := by
  induction l generalizing a with
  | nil => simp [sumPercents]
  | cons t ts ih =>
    simp only [sumPercents, List.foldl_cons]
    rw [ih, ih (0 + t.percent)]
    omega

theorem sumPercents_le (l : List Task) (h : ∀ t ∈ l, t.percent ≤ 100) :
    sumPercents l ≤ 100 * l.length := by
  induction l with
  | nil => simp [sumPercents]
  | cons t ts ih =>
    have h1 : t.percent ≤ 100 := h t (List.mem_cons_self _ _)
    have h2 := ih (fun x hx => h x (List.mem_cons_of_mem _ hx))
    have h3 : sumPercents (t :: ts) = t.percent + sumPercents ts := by
      rw [show sumPercents (t :: ts)
            = ts.foldl (fun s x => s + x.percent) (0 + t.percent) from rfl,
        sumPercents_aux]
      omega
    rw [h3, List.length_cons]
    omega

theorem dayAverage_le_100 (l : List Task) (h : ∀ t ∈ l, t.percent ≤ 100) :
    dayAverage l ≤ 100 := by
  unfold dayAverage roundHalfUpDiv
  cases hl : l.length with
  | zero => simp [hl]
  | succ n =>
    have hsum := sumPercents_le l h
    rw [hl] at hsum
    have hlt : (2 * sumPercents l + (n + 1)) / (2 * (n + 1)) < 101 := by
      rw [Nat.div_lt_iff_lt_mul (by omega)]
      omega
    omega

theorem creditFor_le_weight (gs : List Goal) (ts : List Task) (k : Nat)
    (h : ∀ t ∈ ts, t.percent ≤ 100) :
    creditFor gs ts k ≤ weightOf gs k := by
  unfold creditFor
  have havg : dayAverage (tasksFor ts k) ≤ 100 :=
    dayAverage_le_100 _ (fun t ht => h t (List.mem_of_mem_filter ht))
  unfold roundHalfUpDiv
  have hmul : dayAverage (tasksFor ts k) * weightOf gs k ≤ 100 * weightOf gs k :=
    Nat.mul_le_mul_right _ havg
  have hlt : (2 * (dayAverage (tasksFor ts k) * weightOf gs k) + 100) / (2 * 100)
      < weightOf gs k + 1 := by
    rw [Nat.div_lt_iff_lt_mul (by norm_num)]
    omega
  omega

/-- Invariant maintained by repeated rollup runs within one day, stated
relative to the day-start goal store `gs0`: goal ids and weights are
preserved, every stored credit stays within `[0, weight]`, every goal's
progress stays within `[0,100]`, and progress never exceeds its
day-start value plus the goal's stored credit. -/
def RollupInv (gs0 : List Goal) (st : List Goal × Credits) : Prop :=
  st.1.length = gs0.length ∧
  (∀ k, weightOf st.1 k = weightOf gs0 k) ∧
  (∀ k, 0 ≤ lookupCredit st.2 k ∧ lookupCredit st.2 k ≤ (weightOf gs0 k : Int)) ∧
  (∀ i, ∀ h0 : i < gs0.length, ∀ h : i < st.1.length,
    st.1[i].id = gs0[i].id ∧
    0 ≤ st.1[i].progress ∧ st.1[i].progress ≤ 100 ∧
    st.1[i].progress ≤ gs0[i].progress + lookupCredit st.2 gs0[i].id)

theorem rollupInv_init (gs0 : List Goal)
    (hg : ∀ g ∈ gs0, 0 ≤ g.progress ∧ g.progress ≤ 100) :
    RollupInv gs0 (gs0, ([] : Credits)) := by
  refine ⟨rfl, fun k => rfl, fun k => ⟨le_refl 0, Int.ofNat_nonneg _⟩, fun i h0 h => ?_⟩
  have hmem : gs0[i] ∈ gs0 := List.getElem_mem h0
  refine ⟨rfl, (hg _ hmem).1, (hg _ hmem).2, ?_⟩
  show gs0[i].progress ≤ gs0[i].progress + (0 : Int)
  omega

theorem rollupInv_step (gs0 : List Goal) (st : List Goal × Credits) (ts : List Task)
    (hg0 : ∀ g ∈ gs0, 0 ≤ g.progress)
    (hinv : RollupInv gs0 st) (hts : ∀ t ∈ ts, t.percent ≤ 100) :
    RollupInv gs0 (applyCredits st.1 ts st.2) := by
  obtain ⟨hlen, hw, hc, hidx⟩ := hinv
  cases hch : creditsChanged st.2 (nextCredits st.1 ts st.2) with
  | false =>
    have happ : applyCredits st.1 ts st.2 = (st.1, st.2) := by
      unfold applyCredits; simp [hch]
    rw [happ]
    exact ⟨hlen, hw, hc, hidx⟩
  | true =>
    have happ : applyCredits st.1 ts st.2
        = (st.1.map (applyGoalCredit st.2 (nextCredits st.1 ts st.2)),
           nextCredits st.1 ts st.2) := by
      unfold applyCredits; simp [hch]
    rw [happ]
    have hlooknc : ∀ k, 0 ≤ lookupCredit (nextCredits st.1 ts st.2) k ∧
        lookupCredit (nextCredits st.1 ts st.2) k ≤ (weightOf gs0 k : Int) := by
      intro k
      rw [lookupCredit_nextCredits]
      by_cases hk : k ∈ goalIds ts
      · rw [if_pos hk]
        refine ⟨Int.ofNat_nonneg _, ?_⟩
        have hle := creditFor_le_weight st.1 ts k hts
        rw [hw k] at hle
        exact_mod_cast hle
      · rw [if_neg hk]
        exact ⟨le_refl 0, Int.ofNat_nonneg _⟩
    refine ⟨?_, ?_, hlooknc, ?_⟩
    · dsimp only
      rw [List.length_map]
      exact hlen
    · intro k
      dsimp only
      rw [weightOf_map_applyGoalCredit, hw k]
    · intro i h0 h
      dsimp only at h ⊢
      rw [List.length_map] at h
      obtain ⟨hid, hp0, hp1, hpc⟩ := hidx i h0 h
      rw [List.getElem_map]
      unfold applyGoalCredit
      dsimp only
      split
      · rename_i hzero
        refine ⟨hid, hp0, hp1, ?_⟩
        rw [hid] at hzero
        have heq : lookupCredit (nextCredits st.1 ts st.2) gs0[i].id
            = lookupCredit st.2 gs0[i].id := by omega
        rw [heq]
        exact hpc
      · refine ⟨hid, clampI_nonneg _, clampI_le_100 _, ?_⟩
        rw [hid]
        have hg0i : 0 ≤ gs0[i].progress := hg0 _ (List.getElem_mem h0)
        have hnc0 : 0 ≤ lookupCredit (nextCredits st.1 ts st.2) gs0[i].id :=
          (hlooknc gs0[i].id).1
        refine clampI_le_of _ _ ?_ (by omega)
        omega

theorem rollupInv_foldl (gs0 : List Goal) (hg0 : ∀ g ∈ gs0, 0 ≤ g.progress)
    (edits : List (List Task)) (st : List Goal × Credits)
    (hinv : RollupInv gs0 st)
    (hts : ∀ ts ∈ edits, ∀ t ∈ ts, t.percent ≤ 100) :
    RollupInv gs0 (edits.foldl (fun s ts => applyCredits s.1 ts s.2) st) := by
  induction edits generalizing st with
  | nil => exact hinv
  | cons ts rest ih =>
    rw [List.foldl_cons]
    exact ih _ (rollupInv_step gs0 st ts hg0 hinv (hts ts (List.mem_cons_self _ _)))
      (fun ts' h' => hts ts' (List.mem_cons_of_mem _ h'))

/-- C3: over any finite sequence of task edits within one day, each
followed by a rollup run, a goal's stored credit stays within
`[0, dailyWeight]`, its progress stays within `[0,100]` after every run
(any prefix of `k` runs), and the net delta applied over the day never
exceeds its `dailyWeight`: progress after `k` runs is at most the
day-start progress plus the weight. -/
theorem runDay_bounded (gs0 : List Goal) (edits : List (List Task))
    (hg : ∀ g ∈ gs0, 0 ≤ g.progress ∧ g.progress ≤ 100)
    (hts : ∀ ts ∈ edits, ∀ t ∈ ts, t.percent ≤ 100)
    (k i : Nat) (g0 gk : Goal)
    (h0 : gs0[i]? = some g0)
    (hk : (runDay gs0 (edits.take k)).1[i]? = some gk) :
    (0 ≤ gk.progress ∧ gk.progress ≤ 100) ∧
      gk.progress ≤ g0.progress + (weightOf gs0 g0.id : Int) ∧
      0 ≤ lookupCredit (runDay gs0 (edits.take k)).2 g0.id ∧
      lookupCredit (runDay gs0 (edits.take k)).2 g0.id ≤ (weightOf gs0 g0.id : Int) := by
  have hts' : ∀ ts ∈ edits.take k, ∀ t ∈ ts, t.percent ≤ 100 :=
    fun ts h => hts ts (List.take_subset k edits h)
  have hinv : RollupInv gs0 (runDay gs0 (edits.take k)) := by
    unfold runDay
    exact rollupInv_foldl gs0 (fun g hgm => (hg g hgm).1) _ _ (rollupInv_init gs0 hg) hts'
  obtain ⟨hlen, hw, hc, hidx⟩ := hinv
  obtain ⟨hi0, hget0⟩ := List.getElem?_eq_some_iff.1 h0
  obtain ⟨hik, hgetk⟩ := List.getElem?_eq_some_iff.1 hk
  obtain ⟨hid, hp0, hp1, hpc⟩ := hidx i hi0 hik
  rw [hgetk] at hp0 hp1 hpc
  rw [hget0] at hpc
  refine ⟨⟨hp0, hp1⟩, ?_, (hc g0.id).1, (hc g0.id).2⟩
  have := (hc g0.id).2
  omega

/-- Day-start goal store for the C3 witness run. -/
def c3goals : List Goal := [{ id := 1, progress := 50, dailyWeight := some 5 }]

/-- The goal as it stands after the three witness edits. -/
def c3end : Goal := { id := 1, progress := 55, dailyWeight := some 5 }

/-- Three successive edits of the same single task: 40%, then 80%, then
100%. -/
def c3edits : List (List Task) :=
  [[{ id := 7, goalId := 1, title := "t", how := none, percent := 40 }],
   [{ id := 7, goalId := 1, title := "t", how := none, percent := 80 }],
   [{ id := 7, goalId := 1, title := "t", how := none, percent := 100 }]]

/-- Witness for C3: after the three rollup runs the goal sits at 55 =
50 + 5, its progress within bounds and the cumulative delta exactly at
(and so within) its `dailyWeight` of 5. -/
theorem runDay_bounded_witness :
    (0 ≤ c3end.progress ∧ c3end.progress ≤ 100) ∧
      c3end.progress ≤ (50 : Int) + (weightOf c3goals 1 : Int) ∧
      0 ≤ lookupCredit (runDay c3goals (c3edits.take 3)).2 1 ∧
      lookupCredit (runDay c3goals (c3edits.take 3)).2 1 ≤ (weightOf c3goals 1 : Int) :=
  runDay_bounded c3goals c3edits (by decide) (by decide) 3 0
    { id := 1, progress := 50, dailyWeight := some 5 } c3end (by decide) (by decide)

/-! ## C4: the close-day delta versus the spec's two-stage description -/

/-- Ten tasks for goal 1: nine at 10% and one at 5% (mean 9.5). -/
def c4tasks : List Task :=
  [{ id := 1, goalId := 1, title := "a", how := none, percent := 10 },
   { id := 2, goalId := 1, title := "a", how := none, percent := 10 },
   { id := 3, goalId := 1, title := "a", how := none, percent := 10 },
   { id := 4, goalId := 1, title := "a", how := none, percent := 10 },
   { id := 5, goalId := 1, title := "a", how := none, percent := 10 },
   { id := 6, goalId := 1, title := "a", how := none, percent := 10 },
   { id := 7, goalId := 1, title := "a", how := none, percent := 10 },
   { id := 8, goalId := 1, title := "a", how := none, percent := 10 },
   { id := 9, goalId := 1, title := "a", how := none, percent := 10 },
   { id := 10, goalId := 1, title := "a", how := none, percent := 5 }]

/-- A closable day state holding `c4tasks` for a fresh goal of weight 5. -/
def c4state : CloseState :=
  { goals := [{ id := 1, progress := 0, dailyWeight := some 5 }]
    todayTasks := c4tasks
    todayLocked := false
    tomorrowTasks := []
    tomorrowPriorities := []
    tried := some TriedV.yes
    whyNot := "blocked"
    learned := ""
    improve := ""
    postponeFlags := []
    todayMeta := none }

/-- Counterexample to C4 as stated: on `c4tasks` (mean 9.5) with weight
5 the spec's two-stage computation (`computeDayAverage` rounds the mean
to 10, then `computeDelta` gives `round(0.5) = 1`) yields 1, but
`closeDayAndUpdate` rounds only once (`round(9.5/100*5) = round(0.475) =
0`) and leaves the goal's progress at 0. -/
theorem closeDelta_counterexample :
    specDelta (specDayAverage c4tasks) 5 = 1 ∧
    closeDelta (sumPercents c4tasks) c4tasks.length 5 = 0 ∧
    (closeDayAndUpdate (fun i => 100 + i) c4state).goals
      = [{ id := 1, progress := 0, dailyWeight := some 5 }] := by
  decide

/-- The spec's concrete task list: percents 20, 60, 100 for one goal. -/
def c4specTasks : List Task :=
  [{ id := 1, goalId := 1, title := "a", how := none, percent := 20 },
   { id := 2, goalId := 1, title := "b", how := none, percent := 60 },
   { id := 3, goalId := 1, title := "c", how := none, percent := 100 }]

/-- A closable day state holding `c4specTasks` for a goal of weight 5
sitting at progress 10. -/
def c4specState : CloseState :=
  { goals := [{ id := 1, progress := 10, dailyWeight := some 5 }]
    todayTasks := c4specTasks
    todayLocked := false
    tomorrowTasks := []
    tomorrowPriorities := []
    tried := some TriedV.yes
    whyNot := "blocked"
    learned := ""
    improve := ""
    postponeFlags := []
    todayMeta := none }

/-- C4 (amended): the close-day rollup delta is computed with a single
rounding of the exact mean, `round(sum·weight/(count·100))`
(`closeDelta`); this agrees with the spec's two-stage description
(integer-rounded average, then `round(average/100·weight)`) whenever the
mean is an integer — in particular for percents `[20, 60, 100]` and
`dailyWeight 5` the average is 60, the delta is 3, and closing moves the
goal from 10 to 13. -/
theorem closeDay_delta_amended :
    (∀ sum count w : Nat, count ≠ 0 → count ∣ sum →
      closeDelta sum count w = specDelta (roundHalfUpDiv sum count) w) ∧
    (specDayAverage c4specTasks = 60 ∧
      closeDelta (sumPercents c4specTasks) c4specTasks.length 5 = 3 ∧
      (closeDayAndUpdate (fun i => 100 + i) c4specState).goals
        = [{ id := 1, progress := 13, dailyWeight := some 5 }]) := by
  constructor
  · intro sum count w hc hdvd
    obtain ⟨m, rfl⟩ := hdvd
    have hpos : 0 < count := Nat.pos_of_ne_zero hc
    unfold closeDelta specDelta roundHalfUpDiv
    have h1 : (2 * (count * m) + count) / (2 * count) = m := by
      rw [show 2 * (count * m) + count = count * (2 * m + 1) by ring,
        show 2 * count = count * 2 by ring,
        Nat.mul_div_mul_left _ _ hpos]
      omega
    rw [h1,
      show 2 * (count * m * w) + count * 100 = count * (2 * (m * w) + 100) by ring,
      show 2 * (count * 100) = count * (2 * 100) by ring,
      Nat.mul_div_mul_left _ _ hpos]
  · exact ⟨by decide, by decide, by decide⟩

/-- Witness for C4 (amended): for the spec's own numbers (sum 180 over 3
tasks, an exact mean of 60) the single rounding and the two-stage
computation coincide. -/
theorem closeDay_delta_amended_witness :
    closeDelta 180 3 5 = specDelta (roundHalfUpDiv 180 3) 5 :=
  closeDay_delta_amended.1 180 3 5 (by decide) (by decide)

/-! ## C5: the close gate -/

/-- A day state whose only task is at 50% and whose reason text is a
single space: non-empty, yet blank after trimming. -/
def c5state : CloseState :=
  { goals := [{ id := 1, progress := 0, dailyWeight := some 5 }]
    todayTasks := [{ id := 1, goalId := 1, title := "a", how := none, percent := 50 }]
    todayLocked := false
    tomorrowTasks := []
    tomorrowPriorities := []
    tried := some TriedV.yes
    whyNot := " "
    learned := ""
    improve := ""
    postponeFlags := []
    todayMeta := none }

/-- Counterexample to C5 as stated: with an incomplete task, a chosen
`triedWell` and the non-empty reason `" "`, the claim says the close
succeeds, but the code requires `whyNot.trim().length > 0`, so the close
is rejected and nothing changes. -/
theorem canClose_counterexample :
    c5state.whyNot ≠ "" ∧
    hasIncomplete c5state.todayTasks = true ∧
    c5state.tried.isSome = true ∧
    c5state.todayTasks ≠ [] ∧
    canClose c5state = false ∧
    closeDayAndUpdate (fun i => 100 + i) c5state = c5state := by
  decide

/-- C5 (amended): closing a day succeeds exactly when the day has at
least one task, a `triedWell` value is chosen, and — whenever any task is
below 100% — the `whyNotComplete` reason is non-blank (non-empty after
trimming whitespace); a rejected close changes no state, and a
successful one locks the day and stores the reflection with
`eodSubmitted = true`. -/
theorem canClose_gate (idGen : Nat → Nat) (st : CloseState) :
    (canClose st = true ↔
      (st.todayTasks ≠ [] ∧ st.tried.isSome = true ∧
        (hasIncomplete st.todayTasks = true → nonBlank st.whyNot = true))) ∧
    (canClose st = false → closeDayAndUpdate idGen st = st) ∧
    (canClose st = true →
      (closeDayAndUpdate idGen st).todayLocked = true ∧
      ∃ m, (closeDayAndUpdate idGen st).todayMeta = some m ∧ m.eodSubmitted = true) := by
  refine ⟨?_, ?_, ?_⟩
  · unfold canClose
    cases hInc : hasIncomplete st.todayTasks <;>
      cases hNB : nonBlank st.whyNot <;>
        simp [hInc, hNB, List.length_pos]
  · intro h
    unfold closeDayAndUpdate
    simp [h]
  · intro h
    unfold closeDayAndUpdate
    simp only [h, if_true]
    exact ⟨trivial, _, rfl, rfl⟩

/-- Witness for C5 (amended): replacing the blank reason by `"blocked"`
permits closing — the day locks and the reflection is stored as
submitted. -/
theorem canClose_gate_witness :
    (closeDayAndUpdate (fun i => 100 + i) { c5state with whyNot := "blocked" }).todayLocked
        = true ∧
    ∃ m, (closeDayAndUpdate (fun i => 100 + i)
        { c5state with whyNot := "blocked" }).todayMeta = some m ∧ m.eodSubmitted = true :=
  (canClose_gate (fun i => 100 + i) { c5state with whyNot := "blocked" }).2.2 (by decide)

/-! ## C6: the catch-up gate -/

/-- A pending task the user tries to add to today. -/
def c6task : Task := { id := 3, goalId := 1, title := "write", how := none, percent := 0 }

/-- Yesterday has a plan whose reflection was never submitted; the
catch-up dialog is (not yet) open. -/
def c6state : GateState :=
  { goals := [{ id := 1, progress := 10, dailyWeight := some 5 }]
    yPlanExists := true
    yTasks := [{ id := 1, goalId := 1, title := "a", how := none, percent := 50 }]
    yLocked := false
    ySubmitted := false
    todayTasks := []
    todayLocked := false
    catchOpen := false }

/-- Counterexample to C6 as stated: with yesterday's reflection pending
the sync check opens the catch-up dialog, but the dialog can be
dismissed without submitting (its `onClose` wiring only clears
`catchOpen`), after which adding a task to today succeeds even though
yesterday's reflection is still unsubmitted. -/
theorem catchUp_counterexample :
    (syncCatch c6state).catchOpen = true ∧
    gateStep (syncCatch c6state) GateEvent.dismissCatch = some c6state ∧
    gateStep c6state (GateEvent.addTaskToday c6task)
      = some { c6state with todayTasks := [c6task], catchOpen := true } ∧
    c6state.ySubmitted = false := by
  decide

/-- C6 (amended): while the catch-up dialog is open it blocks edits to
today, and the sync check reopens it after every plans/meta change while
yesterday's plan is unsubmitted; submitting the catch-up reflection
marks yesterday submitted, closes the dialog for good (the sync check no
longer fires) and permits edits to today — but the dialog may also be
dismissed without submitting, after which an edit to today is permitted
even though yesterday is still open (see the counterexample). -/
theorem catchUp_gate (st : GateState) :
    (∀ t, st.catchOpen = true → gateStep st (GateEvent.addTaskToday t) = none) ∧
    (st.yPlanExists = true → st.ySubmitted = false → (syncCatch st).catchOpen = true) ∧
    (∀ tr why st', gateStep st (GateEvent.submitCatch tr why) = some st' →
      st'.ySubmitted = true ∧ st'.catchOpen = false ∧ syncCatch st' = st' ∧
      (∀ t, st'.todayLocked = false → nonBlank t.title = true →
        (gateStep st' (GateEvent.addTaskToday t)).isSome = true)) := by
  refine ⟨?_, ?_, ?_⟩
  · intro t h
    unfold gateStep
    simp [h]
  · intro h1 h2
    unfold syncCatch
    simp [h1, h2]
  · intro tr why st' h
    rw [show gateStep st (GateEvent.submitCatch tr why)
          = (if !st.catchOpen then none
             else if !catchCanSubmit st.yTasks (some tr) why then none
             else some (syncCatch
               { st with ySubmitted := true, yLocked := true, catchOpen := false })) from rfl] at h
    split at h
    · exact absurd h (by simp)
    · split at h
      · exact absurd h (by simp)
      · have hsync : syncCatch { st with ySubmitted := true, yLocked := true, catchOpen := false }
            = { st with ySubmitted := true, yLocked := true, catchOpen := false } := by
          unfold syncCatch
          simp
        have hst' : st' = { st with ySubmitted := true, yLocked := true, catchOpen := false } := by
          rw [← Option.some_inj.1 h, hsync]
        subst hst'
        refine ⟨rfl, rfl, hsync, ?_⟩
        intro t hlock hnb
        unfold gateStep
        simp only at hlock
        simp [hlock, hnb]

/-- Witness for C6 (amended): with the dialog open, adding a task to
today is rejected. -/
theorem catchUp_gate_witness :
    gateStep { c6state with catchOpen := true } (GateEvent.addTaskToday c6task) = none :=
  (catchUp_gate { c6state with catchOpen := true }).1 c6task rfl

/-! ## C10: catch-up submission applies no rollup delta -/

/-- C10: submitting the catch-up reflection marks yesterday's record
submitted and locks yesterday's plan, but leaves the goal store — and so
every goal's progress — untouched, whatever yesterday's task percentages
were; today's tasks are untouched as well. -/
theorem submitCatch_frame (st : GateState) (tr : TriedV) (why : String) (st' : GateState)
    (h : gateStep st (GateEvent.submitCatch tr why) = some st') :
    st'.goals = st.goals ∧ st'.ySubmitted = true ∧ st'.yLocked = true ∧
      st'.todayTasks = st.todayTasks := by
  rw [show gateStep st (GateEvent.submitCatch tr why)
        = (if !st.catchOpen then none
           else if !catchCanSubmit st.yTasks (some tr) why then none
           else some (syncCatch
             { st with ySubmitted := true, yLocked := true, catchOpen := false })) from rfl] at h
  split at h
  · exact absurd h (by simp)
  · split at h
    · exact absurd h (by simp)
    · have hsync : syncCatch { st with ySubmitted := true, yLocked := true, catchOpen := false }
          = { st with ySubmitted := true, yLocked := true, catchOpen := false } := by
        unfold syncCatch
        simp
      have hst' : st' = { st with ySubmitted := true, yLocked := true, catchOpen := false } := by
        rw [← Option.some_inj.1 h, hsync]
      subst hst'
      exact ⟨rfl, rfl, rfl, rfl⟩

/-- Yesterday pending at 30% with the dialog open, for the C10 witness. -/
def c10state : GateState :=
  { goals := [{ id := 1, progress := 10, dailyWeight := some 5 }]
    yPlanExists := true
    yTasks := [{ id := 1, goalId := 1, title := "a", how := none, percent := 30 }]
    yLocked := false
    ySubmitted := false
    todayTasks := []
    todayLocked := false
    catchOpen := true }

/-- Witness for C10: submitting the catch-up for a 30%-complete
yesterday leaves the goal store exactly as it was. -/
theorem submitCatch_frame_witness :
    ∃ st', gateStep c10state (GateEvent.submitCatch TriedV.yes "no time") = some st' ∧
      st'.goals = c10state.goals ∧ st'.ySubmitted = true ∧ st'.yLocked = true := by
  have h : gateStep c10state (GateEvent.submitCatch TriedV.yes "no time")
      = some { c10state with ySubmitted := true, yLocked := true, catchOpen := false } := by
    decide
  have hf := submitCatch_frame c10state TriedV.yes "no time" _ h
  exact ⟨_, h, hf.1, hf.2.1, hf.2.2.1⟩

/-! ## C7: postponement copies tasks, never moves them -/

theorem copyAll_forall₂ (idGen : Nat → Nat) (i : Nat) (l : List Task) :
    List.Forall₂ (fun c s => c.goalId = s.goalId ∧ c.title = s.title ∧ c.how = s.how ∧
      c.percent = 0) (copyAll idGen i l) l := by
  induction l generalizing i with
  | nil => exact List.Forall₂.nil
  | cons t ts ih => exact List.Forall₂.cons ⟨rfl, rfl, rfl, rfl⟩ (ih (i + 1))

theorem copyAll_ids (idGen : Nat → Nat) (i : Nat) (l : List Task) :
    ∀ c ∈ copyAll idGen i l, ∃ j, c.id = idGen j := by
  induction l generalizing i with
  | nil => intro c hc; cases hc
  | cons t ts ih =>
    intro c hc
    rcases List.mem_cons.1 hc with hhd | htl
    · refine ⟨i, ?_⟩
      rw [hhd]
      rfl
    · exact ih (i + 1) c htl

theorem autoCarry_not_exists (idG : Nat → Nat) (cs : CarryState)
    (h : cs.yPlanExists = false) : autoCarry idG cs = cs := by
  unfold autoCarry
  simp [h]

theorem autoCarry_carried (idG : Nat → Nat) (cs : CarryState)
    (h : cs.tCarriedFromY = true) : autoCarry idG cs = cs := by
  unfold autoCarry
  simp [h]

theorem autoCarry_marks (idG : Nat → Nat) (cs : CarryState)
    (h : cs.yPlanExists = true) : (autoCarry idG cs).tCarriedFromY = true := by
  unfold autoCarry
  rw [h]
  cases hC : cs.tCarriedFromY with
  | true => simp [hC]
  | false =>
    simp only [Bool.not_true, Bool.false_or, hC]
    rw [if_neg (by simp : ¬(false = true))]
    split <;> rfl

/-- The auto-carry effect runs at most once per day transition: a second
run after any first run is a no-op (the `carriedFrom` guard). -/
theorem autoCarry_once (idG1 idG2 : Nat → Nat) (cs : CarryState) :
    autoCarry idG2 (autoCarry idG1 cs) = autoCarry idG1 cs := by
  cases hE : cs.yPlanExists with
  | false =>
    rw [autoCarry_not_exists idG1 cs hE]
    exact autoCarry_not_exists idG2 cs hE
  | true => exact autoCarry_carried idG2 _ (autoCarry_marks idG1 cs hE)

/-- C7: closing a day copies each flagged incomplete task into
tomorrow's plan — one fresh-id copy per flagged task, inheriting
`goalId`, `title` and `how` at percent 0 — prepended to tomorrow's
existing tasks; a task `T` with a unique id contributes exactly one
copy; the original tasks (including `T`) remain unchanged in the closed
day's record; and in the dynamic variant the auto-carry runs at most
once per day transition, guarded by the `carriedFrom` marker. -/
theorem postpone_copy_semantics (idGen : Nat → Nat) (st : CloseState) (t : Task)
    (hcan : canClose st = true)
    (ht : t ∈ st.todayTasks) (hpct : t.percent < 100)
    (hflag : st.postponeFlags.contains t.id = true)
    (hids : (st.todayTasks.map (fun x => x.id)).Nodup) :
    (∃ moved, (closeDayAndUpdate idGen st).tomorrowTasks = moved ++ st.tomorrowTasks ∧
      List.Forall₂ (fun c s => c.goalId = s.goalId ∧ c.title = s.title ∧ c.how = s.how ∧
        c.percent = 0) moved (incompleteFlagged st) ∧
      (∀ c ∈ moved, ∃ j, c.id = idGen j)) ∧
    (incompleteFlagged st).countP (fun s => s.id == t.id) = 1 ∧
    t ∈ incompleteFlagged st ∧
    (closeDayAndUpdate idGen st).todayTasks = st.todayTasks ∧
    (closeDayAndUpdate idGen st).todayLocked = true ∧
    (∀ idG1 idG2 cs, autoCarry idG2 (autoCarry idG1 cs) = autoCarry idG1 cs) := by
  have htInc : t ∈ incompleteFlagged st := by
    unfold incompleteFlagged
    rw [List.mem_filter]
    refine ⟨ht, ?_⟩
    rw [Bool.and_eq_true]
    exact ⟨decide_eq_true hpct, hflag⟩
  have hne : incompleteFlagged st ≠ [] := fun hnil => by rw [hnil] at htInc; cases htInc
  have hemp : (incompleteFlagged st).isEmpty = false := List.isEmpty_eq_false.2 hne
  refine ⟨?_, ?_, htInc, ?_, ?_, fun idG1 idG2 cs => autoCarry_once idG1 idG2 cs⟩
  · refine ⟨copyAll idGen 0 (incompleteFlagged st), ?_, copyAll_forall₂ idGen 0 _,
      copyAll_ids idGen 0 _⟩
    unfold closeDayAndUpdate
    simp [hcan, hemp]
  · unfold incompleteFlagged
    rw [List.countP_filter]
    have hcong : List.countP
        (fun s => (s.id == t.id) &&
          (decide (s.percent < 100) && st.postponeFlags.contains s.id)) st.todayTasks
        = List.countP (fun s => s.id == t.id) st.todayTasks := by
      refine List.countP_congr (fun s hs => ?_)
      constructor
      · intro hh
        rw [Bool.and_eq_true] at hh
        exact hh.1
      · intro hh
        have hsid : s.id = t.id := by simpa using hh
        have hst : s = t := List.inj_on_of_nodup_map hids hs ht hsid
        subst hst
        rw [Bool.and_eq_true]
        refine ⟨by simp, ?_⟩
        rw [Bool.and_eq_true]
        exact ⟨decide_eq_true hpct, hflag⟩
    rw [hcong]
    have hmap : List.countP (fun s : Task => s.id == t.id) st.todayTasks
        = List.count t.id (st.todayTasks.map (fun x => x.id)) := by
      rw [List.count_eq_countP, List.countP_map]
      rfl
    rw [hmap]
    exact List.count_eq_one_of_mem hids (List.mem_map.2 ⟨t, ht, rfl⟩)
  · unfold closeDayAndUpdate
    simp [hcan]
  · unfold closeDayAndUpdate
    simp [hcan]

/-- A closable day for the C7 witness: task 1 (goal 1) finished, task 2
(goal 2, at 40%) flagged for postponement; tomorrow already has a task. -/
def c7state : CloseState :=
  { goals := [{ id := 1, progress := 30, dailyWeight := some 5 },
              { id := 2, progress := 60, dailyWeight := some 10 }]
    todayTasks := [{ id := 1, goalId := 1, title := "done", how := none, percent := 100 },
                   { id := 2, goalId := 2, title := "draft", how := some "plan", percent := 40 }]
    todayLocked := false
    tomorrowTasks := [{ id := 9, goalId := 1, title := "old", how := none, percent := 0 }]
    tomorrowPriorities := [1]
    tried := some TriedV.no
    whyNot := "ran out of time"
    learned := ""
    improve := ""
    postponeFlags := [2]
    todayMeta := none }

/-- The flagged 40% task of `c7state`. -/
def c7task : Task := { id := 2, goalId := 2, title := "draft", how := some "plan", percent := 40 }

/-- Witness for C7 at `c7state`: exactly one copy of the flagged task is
prepended to tomorrow, today's record is unchanged and locked. -/
theorem postpone_copy_semantics_witness :
    (∃ moved, (closeDayAndUpdate (fun i => 100 + i) c7state).tomorrowTasks
        = moved ++ c7state.tomorrowTasks ∧
      List.Forall₂ (fun c s => c.goalId = s.goalId ∧ c.title = s.title ∧ c.how = s.how ∧
        c.percent = 0) moved (incompleteFlagged c7state) ∧
      (∀ c ∈ moved, ∃ j, c.id = (fun i => 100 + i) j)) ∧
    (incompleteFlagged c7state).countP (fun s => s.id == c7task.id) = 1 ∧
    c7task ∈ incompleteFlagged c7state ∧
    (closeDayAndUpdate (fun i => 100 + i) c7state).todayTasks = c7state.todayTasks ∧
    (closeDayAndUpdate (fun i => 100 + i) c7state).todayLocked = true ∧
    (∀ idG1 idG2 cs, autoCarry idG2 (autoCarry idG1 cs) = autoCarry idG1 cs) :=
  postpone_copy_semantics (fun i => 100 + i) c7state c7task (by decide)
    (by decide) (by decide) (by decide) (by decide)

/-! ## C9: missed check-ins fail the session and reset the counter

The claimed behaviour is the program's documented intent: the UI warns
that a missed acknowledgement "will fail and your today count resets to
0" (part_006:427), and `recordSession` implements exactly the reset
(with the source comment "per requirement: reset to 0 and discard
sessions") and the completed increment.  But the interval callback's
guards read `needsAck` and `running` from the `startTimer` closure,
where both are permanently `false`, so `stopTimer('failed')` and
`stopTimer('completed')` are unreachable from the tick: no session ever
fails on a missed check-in and no session ever increments the counter
at the end of its countdown. -/

/-- A running session, 1 second left, check-in pending with a grace
deadline of (milliseconds) 1000, two sessions already completed today. -/
def c9missed : FocusState :=
  { running := true, remainingSec := 1, needsAck := true, ackDeadline := some 1000,
    nextAckAt := none, focusedCount := 2,
    sessions := [SessionStatus.completed, SessionStatus.completed] }

/-- C9 (code bug): `recordSession` does implement the claimed counter
semantics — `failed` resets the counter to zero and discards the
recorded sessions, `completed` increments by one — but the interval
tick as actually created (`sessionTick`, stale closure captures
`needsAck = running = false`) never reaches either: every tick leaves
the counter, the session list and the running flag untouched.  In
particular, at time 2000 — past `c9missed`'s grace deadline of 1000 —
the session keeps running with its counter still at 2, instead of
failing and resetting to zero as claimed. -/
theorem tick_focus_session_dead (t : Nat) (st : FocusState) :
    ((recordSession SessionStatus.failed st).focusedCount = 0 ∧
      (recordSession SessionStatus.failed st).sessions = [] ∧
      (recordSession SessionStatus.completed st).focusedCount = st.focusedCount + 1) ∧
    ((sessionTick t st).focusedCount = st.focusedCount ∧
      (sessionTick t st).sessions = st.sessions ∧
      (sessionTick t st).running = st.running) ∧
    ((sessionTick 2000 c9missed).running = true ∧
      (sessionTick 2000 c9missed).focusedCount = 2 ∧
      (sessionTick 2000 c9missed).sessions = c9missed.sessions) := by
  refine ⟨⟨rfl, rfl, rfl⟩, ?_, by decide⟩
  unfold sessionTick tick
  cases hna : st.nextAckAt with
  | none =>
    cases had : st.ackDeadline with
    | none => simp [hna, had]
    | some dl => simp [hna, had]
  | some na =>
    by_cases hle : na ≤ t
    · simp [hna, hle]
    · cases had : st.ackDeadline with
      | none => simp [hna, hle, had]
      | some dl => simp [hna, hle, had]

end GoalsApp
